import Mathlib

/-!
Verification development for the USA_tickers repository (`src/main.py`).

The program downloads two pipe-delimited listing feeds (`nasdaqlisted.txt`
and `otherlisted.txt`), normalizes them into one canonical table
(`load_all_tickers`, lines 54-99), and exposes read-only views over it:
value-count aggregations (lines 219-221 and 262-264), a text search filter
(lines 372-376), a NASDAQ market-category description map (lines 303-307)
and an export function (`create_download_link`, lines 102-117).

The embedding below models the row-wise data flow of those functions.
Dataframe columns that can hold a missing value (pandas `NaN`) are modelled
as `Option String`; `pd.read_csv` of a pipe-delimited feed turns an empty
field into `NaN`, which `parseField` mirrors by sending `""` to `none`.
The two constant columns added at lines 96-97 (`Data_Source`, a fixed
string, and `Retrieved_Date`, a wall-clock timestamp) play no part in any
claim and carry no data from the feeds, so they are not modelled.
-/

/-- One row of the canonical `all_tickers` dataframe (and, before the
`ETF`-fill/`Type` steps, of the two intermediate per-feed dataframes).
Each field is one dataframe column; `none` is pandas `NaN`. -/
structure Row where
  symbol : Option String
  securityName : Option String
  etf : Option String
  exchange : Option String
  exchangeDetail : Option String
  marketCategory : Option String
  typ : Option String
deriving DecidableEq, Repr

/-- One raw line of the `nasdaqlisted.txt` feed, restricted to the four
columns the program selects (line 90); the remaining feed columns are
never read by the code under verification. Fields are the literal
pipe-delimited texts, prior to pandas NA-conversion. -/
structure NasdaqLine where
  symbol : String
  securityName : String
  marketCategory : String
  etf : String
deriving DecidableEq, Repr

/-- One raw line of the `otherlisted.txt` feed, restricted to the four
columns the program selects (line 91). -/
structure OtherLine where
  actSymbol : String
  securityName : String
  exchange : String
  etf : String
deriving DecidableEq, Repr

/-- `pd.read_csv` on a pipe-delimited feed: an empty field parses as `NaN`. -/
def parseField (s : String) : Option String :=
  if s = "" then none else some s

/-- The fixed exchange-code lookup applied to the second feed
(`nyse_df['Exchange'].map(...)`, lines 79-84). A python dict `.map` sends
a key outside the dict to `NaN`, hence the `none` fallback. -/
def mapExchange (c : String) : Option String :=
  if c = "N" then some "NYSE"
  else if c = "P" then some "NYSE Arca"
  else if c = "A" then some "NYSE American (AMEX)"
  else if c = "Z" then some "BATS/CBOE"
  else none

/-- The `Type` dict-map (`{'Y': 'ETF', 'N': 'Stock'}`, line 95); any other
flag value maps to `NaN`. -/
def mapType (e : String) : Option String :=
  if e = "Y" then some "ETF"
  else if e = "N" then some "Stock"
  else none

/-- Standardization of one parsed `nasdaqlisted.txt` line (lines 65-67, 78,
and the column selection at line 90): `Exchange` and `Exchange_Detail` are
hard-coded to `NASDAQ`. -/
def nasdaqRow (l : NasdaqLine) : Row :=
  { symbol := parseField l.symbol
    securityName := parseField l.securityName
    etf := parseField l.etf
    exchange := some "NASDAQ"
    exchangeDetail := some "NASDAQ"
    marketCategory := parseField l.marketCategory
    typ := none }

/-- Standardization of one parsed `otherlisted.txt` line (lines 73-75,
79-84, and the column selection at line 91): `ACT Symbol` is renamed to
`Symbol`, `Exchange` keeps the raw one-character feed code, and
`Exchange_Detail` is the dict-map of that code. The `Market Category`
column does not exist in this feed, so after `pd.concat` it is `NaN`. -/
def otherRow (l : OtherLine) : Row :=
  { symbol := parseField l.actSymbol
    securityName := parseField l.securityName
    etf := parseField l.etf
    exchange := parseField l.exchange
    exchangeDetail := (parseField l.exchange).bind mapExchange
    marketCategory := none
    typ := none }

/-- The NASDAQ-feed side of the pipeline: rows whose `Symbol` is `NaN` are
dropped (`nasdaq_df[nasdaq_df['Symbol'].notna()]`, line 66). -/
def nasdaqPart (a : List NasdaqLine) : List Row :=
  (a.map nasdaqRow).filter (fun r => r.symbol.isSome)

/-- The other-feed side of the pipeline: rows whose `ACT Symbol` is `NaN`
are dropped (`nyse_df[nyse_df['ACT Symbol'].notna()]`, line 74). -/
def otherPart (b : List OtherLine) : List Row :=
  (b.map otherRow).filter (fun r => r.symbol.isSome)

/-- The row-wise effect of lines 94-95 on the concatenated table:
`ETF` is `fillna('N')`-filled, then `Type` is the dict-map of the filled
flag. -/
def fillAndType (r : Row) : Row :=
  { r with etf := some (r.etf.getD "N"), typ := mapType (r.etf.getD "N") }

/-- The canonical table built by `load_all_tickers` (lines 54-99) from the
two parsed feeds: per-feed standardization and symbol filtering, then
`pd.concat` (lines 89-92), then the `ETF` fill and `Type` derivation
(lines 94-95). -/
def load_all_tickers (a : List NasdaqLine) (b : List OtherLine) : List Row :=
  (nasdaqPart a ++ otherPart b).map fillAndType

example :
    load_all_tickers
      [{ symbol := "AAA", securityName := "Alpha Co", marketCategory := "Q", etf := "N" }]
      [{ actSymbol := "BBB", securityName := "Beta Co", exchange := "N", etf := "Y" }] =
    [{ symbol := some "AAA", securityName := some "Alpha Co", etf := some "N",
       exchange := some "NASDAQ", exchangeDetail := some "NASDAQ",
       marketCategory := some "Q", typ := some "Stock" },
     { symbol := some "BBB", securityName := some "Beta Co", etf := some "Y",
       exchange := some "N", exchangeDetail := some "NYSE",
       marketCategory := none, typ := some "ETF" }] := by decide

example :
    load_all_tickers []
      [{ actSymbol := "XXX", securityName := "Chi Co", exchange := "X", etf := "" }] =
    [{ symbol := some "XXX", securityName := some "Chi Co", etf := some "N",
       exchange := some "X", exchangeDetail := none,
       marketCategory := none, typ := some "Stock" }] := by decide

example :
    load_all_tickers [{ symbol := "", securityName := "Ghost", marketCategory := "", etf := "" }] [] =
    [] := by decide

/-- Every canonical row is the fill/type image of a standardized row of one
of the two feeds whose symbol survived the `notna` filter. -/
theorem load_cases {a : List NasdaqLine} {b : List OtherLine} {r : Row}
    (h : r ∈ load_all_tickers a b) :
    (∃ l ∈ a, (nasdaqRow l).symbol.isSome ∧ r = fillAndType (nasdaqRow l)) ∨
    (∃ l ∈ b, (otherRow l).symbol.isSome ∧ r = fillAndType (otherRow l)) := by
  simp only [load_all_tickers, nasdaqPart, otherPart, List.mem_map, List.mem_append,
    List.mem_filter] at h
  obtain ⟨x, hx | hx, rfl⟩ := h
  · obtain ⟨⟨l, hl, rfl⟩, hs⟩ := hx
    exact Or.inl ⟨l, hl, hs, rfl⟩
  · obtain ⟨⟨l, hl, rfl⟩, hs⟩ := hx
    exact Or.inr ⟨l, hl, hs, rfl⟩

/-- A second-feed line with a parseable symbol lands in the canonical table. -/
theorem other_mem_load {a : List NasdaqLine} {b : List OtherLine} {l : OtherLine}
    (hl : l ∈ b) (hs : (otherRow l).symbol.isSome) :
    fillAndType (otherRow l) ∈ load_all_tickers a b := by
  unfold load_all_tickers
  exact List.mem_map_of_mem _ (List.mem_append_right _
    (List.mem_filter.mpr ⟨List.mem_map_of_mem _ hl, hs⟩))

/-- A first-feed line with a parseable symbol lands in the canonical table. -/
theorem nasdaq_mem_load {a : List NasdaqLine} {b : List OtherLine} {l : NasdaqLine}
    (hl : l ∈ a) (hs : (nasdaqRow l).symbol.isSome) :
    fillAndType (nasdaqRow l) ∈ load_all_tickers a b := by
  unfold load_all_tickers
  exact List.mem_map_of_mem _ (List.mem_append_left _
    (List.mem_filter.mpr ⟨List.mem_map_of_mem _ hl, hs⟩))

/-- Every canonical row is the fill/type image of some standardized row. -/
theorem load_fill {a : List NasdaqLine} {b : List OtherLine} {r : Row}
    (hr : r ∈ load_all_tickers a b) : ∃ x, r = fillAndType x := by
  have h' : (∃ x ∈ nasdaqPart a, fillAndType x = r) ∨ ∃ x ∈ otherPart b, fillAndType x = r := by
    simpa [load_all_tickers] using hr
  rcases h' with ⟨x, -, h⟩ | ⟨x, -, h⟩ <;> exact ⟨x, h.symm⟩

theorem parseField_isSome {s : String} (h : (parseField s).isSome) :
    parseField s = some s ∧ s ≠ "" := by
  by_cases hs : s = ""
  · simp [parseField, hs] at h
  · simp [parseField, hs]

/-- The six values the `Exchange_Detail` column can actually take: the five
exchange names, or `NaN` when the second feed's code is outside the dict. -/
def detailRange : List (Option String) :=
  [some "NASDAQ", some "NYSE", some "NYSE Arca", some "NYSE American (AMEX)",
   some "BATS/CBOE", none]

/-- C1 (amended): a second-feed row whose one-character exchange code is
outside the mapped set still appears in the canonical table, and
`Exchange_Detail` is never the raw single-character code — but for an
unmapped code it is `NaN` (missing), not an explicit "Unknown"/"Other"
sentinel: the dict `.map` at lines 79-84 sends unmapped codes to `NaN` and
no later step fills that column. -/
theorem C1_unmapped_code_kept_with_null_detail (a : List NasdaqLine) (b : List OtherLine) :
    (∀ r ∈ load_all_tickers a b, r.exchangeDetail ∈ detailRange)
    ∧ (∀ l ∈ b, l.actSymbol ≠ "" → fillAndType (otherRow l) ∈ load_all_tickers a b) := by
  constructor
  · intro r hr
    rcases load_cases hr with ⟨l, _, _, rfl⟩ | ⟨l, _, _, rfl⟩
    · simp [fillAndType, nasdaqRow, detailRange]
    · show (otherRow l).exchangeDetail ∈ detailRange
      simp only [otherRow]
      cases parseField l.exchange with
      | none => simp [detailRange]
      | some c =>
        show mapExchange c ∈ detailRange
        unfold mapExchange
        split_ifs <;> simp [detailRange]
  · intro l hl h0
    exact other_mem_load hl (by simp [otherRow, parseField, h0])

/-- C1 counterexample: for a second-feed row with unmapped code `X`, the
canonical table keeps the row but its `Exchange_Detail` is neither
"Unknown" nor "Other" (it is `NaN`). -/
theorem C1_counterexample :
    ¬ (∀ r ∈ load_all_tickers []
          [{ actSymbol := "XXX", securityName := "Chi Co", exchange := "X", etf := "N" }],
        r.exchangeDetail = some "Unknown" ∨ r.exchangeDetail = some "Other") := by
  decide

/-- C1 witness: the amended theorem applied to a concrete unmapped-code line. -/
theorem C1_witness :
    fillAndType (otherRow
        { actSymbol := "XXX", securityName := "Chi Co", exchange := "X", etf := "N" })
      ∈ load_all_tickers []
          [{ actSymbol := "XXX", securityName := "Chi Co", exchange := "X", etf := "N" }] :=
  (C1_unmapped_code_kept_with_null_detail []
      [{ actSymbol := "XXX", securityName := "Chi Co", exchange := "X", etf := "N" }]).2
    { actSymbol := "XXX", securityName := "Chi Co", exchange := "X", etf := "N" }
    (by decide) (by decide)

/-- C2: every record of the canonical table has a non-empty symbol, and a
line with an empty symbol field is dropped from its own feed's parsed
table by the `notna` filter (lines 66 and 74). -/
theorem C2_symbol_nonempty (a : List NasdaqLine) (b : List OtherLine) :
    (∀ r ∈ load_all_tickers a b, ∃ s, r.symbol = some s ∧ s ≠ "")
    ∧ (∀ l ∈ a, l.symbol = "" → nasdaqRow l ∉ nasdaqPart a)
    ∧ (∀ l ∈ b, l.actSymbol = "" → otherRow l ∉ otherPart b) := by
  refine ⟨?_, ?_, ?_⟩
  · intro r hr
    rcases load_cases hr with ⟨l, _, hs, rfl⟩ | ⟨l, _, hs, rfl⟩
    · obtain ⟨h1, h2⟩ := parseField_isSome hs
      exact ⟨l.symbol, h1, h2⟩
    · obtain ⟨h1, h2⟩ := parseField_isSome hs
      exact ⟨l.actSymbol, h1, h2⟩
  · intro l _ h0 hmem
    rw [nasdaqPart, List.mem_filter] at hmem
    simp [nasdaqRow, parseField, h0] at hmem
  · intro l _ h0 hmem
    rw [otherPart, List.mem_filter] at hmem
    simp [otherRow, parseField, h0] at hmem

/-- C2 witness: instantiation at a concrete feed. -/
theorem C2_witness :
    ∃ s, (fillAndType (nasdaqRow
        { symbol := "AAA", securityName := "Alpha Co", marketCategory := "Q", etf := "N" })).symbol
      = some s ∧ s ≠ "" :=
  (C2_symbol_nonempty
      [{ symbol := "AAA", securityName := "Alpha Co", marketCategory := "Q", etf := "N" }] []).1
    (fillAndType (nasdaqRow
      { symbol := "AAA", securityName := "Alpha Co", marketCategory := "Q", etf := "N" }))
    (by decide)

theorem mapType_spec (e : String) :
    (mapType e = some "ETF" ↔ e = "Y")
    ∧ (mapType e = some "Stock" ↔ e = "N")
    ∧ (e ≠ "Y" → e ≠ "N" → mapType e = none) := by
  unfold mapType
  split_ifs with h1 h2
  · subst h1; decide
  · subst h2; decide
  · simp [h1, h2]

/-- C3 (amended): `Type` is `ETF` iff the (fill-completed) fund flag is
`Y`, and `Stock` iff that flag is `N` — which covers a missing source flag,
first defaulted to `N` by `fillna` — but for any other non-missing flag
value the dict `.map` at line 95 yields `NaN`, not `Stock`. -/
theorem C3_type_classification (a : List NasdaqLine) (b : List OtherLine) :
    ∀ r ∈ load_all_tickers a b,
      (r.typ = some "ETF" ↔ r.etf = some "Y")
      ∧ (r.typ = some "Stock" ↔ r.etf = some "N")
      ∧ (∀ s, r.etf = some s → s ≠ "Y" → s ≠ "N" → r.typ = none) := by
  intro r hr
  obtain ⟨x, rfl⟩ := load_fill hr
  have h := mapType_spec (x.etf.getD "N")
  refine ⟨?_, ?_, ?_⟩
  · simpa [fillAndType] using h.1
  · simpa [fillAndType] using h.2.1
  · intro s hs hY hN
    have he : x.etf.getD "N" = s := by simpa [fillAndType] using hs
    show mapType (x.etf.getD "N") = none
    rw [he]
    exact (mapType_spec s).2.2 hY hN

/-- C3 counterexample: a first-feed line whose fund flag is `X` is kept,
its flag is not `Y`, yet its `Type` is `NaN`, not `Stock`. -/
theorem C3_counterexample :
    (load_all_tickers
        [{ symbol := "CCC", securityName := "Gamma Co", marketCategory := "Q", etf := "X" }]
        []).map Row.etf = [some "X"]
    ∧ ¬ (∀ r ∈ load_all_tickers
          [{ symbol := "CCC", securityName := "Gamma Co", marketCategory := "Q", etf := "X" }]
          [], r.typ = some "Stock") := by
  decide

/-- C3 witness: instantiation at a concrete feed. -/
theorem C3_witness :
    (fillAndType (nasdaqRow
        { symbol := "AAA", securityName := "Alpha Co", marketCategory := "Q", etf := "N" })).typ
        = some "Stock"
      ↔ (fillAndType (nasdaqRow
        { symbol := "AAA", securityName := "Alpha Co", marketCategory := "Q", etf := "N" })).etf
        = some "N" :=
  ((C3_type_classification
      [{ symbol := "AAA", securityName := "Alpha Co", marketCategory := "Q", etf := "N" }] [])
    (fillAndType (nasdaqRow
      { symbol := "AAA", securityName := "Alpha Co", marketCategory := "Q", etf := "N" }))
    (by decide)).2.1

/-- C4 (amended): the coarse `Exchange` column is `NASDAQ` for every
first-feed row, but for second-feed rows it keeps the raw one-character
feed code (the column is never rewritten for that feed), so its value set
is not the two-element enumeration {NASDAQ, OTHER} and `OTHER` is never
produced. -/
theorem C4_exchange_column (a : List NasdaqLine) (b : List OtherLine) :
    ∀ r ∈ load_all_tickers a b,
      r.exchange = some "NASDAQ" ∨ ∃ l ∈ b, r.exchange = parseField l.exchange := by
  intro r hr
  rcases load_cases hr with ⟨l, hl, _, rfl⟩ | ⟨l, hl, _, rfl⟩
  · exact Or.inl rfl
  · exact Or.inr ⟨l, hl, rfl⟩

/-- C4 counterexample: a second-feed row with code `N` has `Exchange = N`
in the canonical table, outside the claimed enumeration {NASDAQ, OTHER}. -/
theorem C4_counterexample :
    ¬ (∀ r ∈ load_all_tickers []
          [{ actSymbol := "BBB", securityName := "Beta Co", exchange := "N", etf := "N" }],
        r.exchange = some "NASDAQ" ∨ r.exchange = some "OTHER") := by
  decide

/-- C4 witness: instantiation at a concrete feed. -/
theorem C4_witness :
    (fillAndType (otherRow
        { actSymbol := "BBB", securityName := "Beta Co", exchange := "N", etf := "N" })).exchange
      = some "NASDAQ"
    ∨ ∃ l ∈ [{ actSymbol := "BBB", securityName := "Beta Co", exchange := "N",
               etf := "N" : OtherLine }],
        (fillAndType (otherRow
          { actSymbol := "BBB", securityName := "Beta Co", exchange := "N",
            etf := "N" })).exchange = parseField l.exchange :=
  (C4_exchange_column []
      [{ actSymbol := "BBB", securityName := "Beta Co", exchange := "N", etf := "N" }])
    (fillAndType (otherRow
      { actSymbol := "BBB", securityName := "Beta Co", exchange := "N", etf := "N" }))
    (by decide)

/-- C5: every first-feed row is tagged `Exchange = NASDAQ` and
`Exchange_Detail = NASDAQ` unconditionally; every second-feed row's
`Exchange_Detail` is the fixed dict lookup applied to its one-character
code, with N→NYSE, P→NYSE Arca, A→NYSE American (AMEX), Z→BATS/CBOE; the
later fill/type step changes neither column, and the canonical table is
exactly the two tagged parts concatenated. -/
theorem C5_feed_tagging (a : List NasdaqLine) (b : List OtherLine) :
    (∀ r ∈ nasdaqPart a, r.exchange = some "NASDAQ" ∧ r.exchangeDetail = some "NASDAQ")
    ∧ (∀ r ∈ otherPart b, r.exchangeDetail = r.exchange.bind mapExchange)
    ∧ mapExchange "N" = some "NYSE"
    ∧ mapExchange "P" = some "NYSE Arca"
    ∧ mapExchange "A" = some "NYSE American (AMEX)"
    ∧ mapExchange "Z" = some "BATS/CBOE"
    ∧ (∀ r, (fillAndType r).exchange = r.exchange
        ∧ (fillAndType r).exchangeDetail = r.exchangeDetail)
    ∧ load_all_tickers a b
        = (nasdaqPart a).map fillAndType ++ (otherPart b).map fillAndType := by
  refine ⟨?_, ?_, by decide, by decide, by decide, by decide, fun r => ⟨rfl, rfl⟩, ?_⟩
  · intro r hr
    simp only [nasdaqPart, List.mem_filter, List.mem_map] at hr
    obtain ⟨⟨l, _, rfl⟩, _⟩ := hr
    exact ⟨rfl, rfl⟩
  · intro r hr
    simp only [otherPart, List.mem_filter, List.mem_map] at hr
    obtain ⟨⟨l, _, rfl⟩, _⟩ := hr
    rfl
  · rw [load_all_tickers, List.map_append]

/-- C5 witness: instantiation at a concrete feed line. -/
theorem C5_witness :
    (nasdaqRow
        { symbol := "AAA", securityName := "Alpha Co", marketCategory := "Q",
          etf := "N" }).exchange = some "NASDAQ"
    ∧ (nasdaqRow
        { symbol := "AAA", securityName := "Alpha Co", marketCategory := "Q",
          etf := "N" }).exchangeDetail = some "NASDAQ" :=
  (C5_feed_tagging
      [{ symbol := "AAA", securityName := "Alpha Co", marketCategory := "Q", etf := "N" }]
      []).1
    (nasdaqRow
      { symbol := "AAA", securityName := "Alpha Co", marketCategory := "Q", etf := "N" })
    (by decide)

/-- `pd.Series.value_counts()` over one canonical-table column: one
`(value, count)` row per distinct non-`NaN` value. The source builds
`exchange_counts` this way at lines 219-221 and `overall_type` at lines
262-264; `value_counts` silently excludes `NaN` cells (its default
`dropna=True`), and the display ordering it applies does not affect any
count. -/
def value_counts (key : Row → Option String) (t : List Row) : List (String × Nat) :=
  ((t.filterMap key).dedup).map (fun k => (k, (t.filterMap key).count k))

/-- The `Exchange_Detail` aggregation of lines 219-221. -/
def exchange_counts (t : List Row) : List (String × Nat) :=
  value_counts (fun r => r.exchangeDetail) t

/-- The `Type` aggregation of lines 262-264. -/
def overall_type (t : List Row) : List (String × Nat) :=
  value_counts (fun r => r.typ) t

def sumCounts (l : List (String × Nat)) : Nat :=
  (l.map Prod.snd).sum

theorem length_filterMap_eq_countP (key : Row → Option String) (t : List Row) :
    (t.filterMap key).length = t.countP (fun r => (key r).isSome) := by
  induction t with
  | nil => rfl
  | cons r t ih =>
    rw [List.filterMap_cons, List.countP_cons]
    cases h : key r <;> simp [ih, h]

theorem sumCounts_value_counts (key : Row → Option String) (t : List Row) :
    sumCounts (value_counts key t) = t.countP (fun r => (key r).isSome) := by
  rw [← length_filterMap_eq_countP]
  unfold sumCounts value_counts
  rw [List.map_map]
  exact List.sum_map_count_dedup_eq_length _

/-- C6 (amended): the per-group counts of `value_counts` grouped by
`Exchange_Detail` (resp. by `Type`) sum to the number of rows whose group
key is non-`NaN`, not to the total row count; the two totals agree exactly
when every row has a non-`NaN` key, and they can differ because an
unmapped exchange code (or an unrecognized fund flag) leaves a `NaN` in
the grouping column. -/
theorem C6_value_counts_sum (t : List Row) :
    sumCounts (exchange_counts t) = t.countP (fun r => r.exchangeDetail.isSome)
    ∧ sumCounts (overall_type t) = t.countP (fun r => r.typ.isSome)
    ∧ ((∀ r ∈ t, r.exchangeDetail.isSome ∧ r.typ.isSome) →
        sumCounts (exchange_counts t) = t.length ∧ sumCounts (overall_type t) = t.length) := by
  refine ⟨sumCounts_value_counts _ t, sumCounts_value_counts _ t, fun h => ⟨?_, ?_⟩⟩
  · unfold exchange_counts
    rw [sumCounts_value_counts]
    exact List.countP_eq_length.mpr (fun r hr => (h r hr).1)
  · unfold overall_type
    rw [sumCounts_value_counts]
    exact List.countP_eq_length.mpr (fun r hr => (h r hr).2)

/-- C6 counterexample: for the canonical table built from a single
second-feed row with unmapped exchange code `X`, the `Exchange_Detail`
aggregation sums to 0 while the table has 1 row. -/
theorem C6_counterexample :
    sumCounts (exchange_counts (load_all_tickers []
        [{ actSymbol := "XXX", securityName := "Chi Co", exchange := "X", etf := "N" }])) = 0
    ∧ (load_all_tickers []
        [{ actSymbol := "XXX", securityName := "Chi Co", exchange := "X", etf := "N" }]).length = 1
    ∧ sumCounts (exchange_counts (load_all_tickers []
          [{ actSymbol := "XXX", securityName := "Chi Co", exchange := "X", etf := "N" }]))
      ≠ (load_all_tickers []
          [{ actSymbol := "XXX", securityName := "Chi Co", exchange := "X", etf := "N" }]).length := by
  decide

/-- C6 witness: instantiation at a concrete all-keys-present table. -/
theorem C6_witness :
    sumCounts (exchange_counts (load_all_tickers []
        [{ actSymbol := "BBB", securityName := "Beta Co", exchange := "N", etf := "N" }]))
      = (load_all_tickers []
          [{ actSymbol := "BBB", securityName := "Beta Co", exchange := "N", etf := "N" }]).length :=
  ((C6_value_counts_sum (load_all_tickers []
      [{ actSymbol := "BBB", securityName := "Beta Co", exchange := "N", etf := "N" }])).2.2
    (by decide)).1

/-- The NASDAQ market-category description dict of lines 303-307, applied
only inside the derived `market_cat` display table, never to the canonical
table itself. -/
def category_desc (c : String) : Option String :=
  if c = "Q" then some "NASDAQ Global Select Market"
  else if c = "G" then some "NASDAQ Global Market"
  else if c = "S" then some "NASDAQ Capital Market"
  else none

/-- C7 (amended): `Market Category` is `NaN` for every second-feed record
(the column is absent from that feed's selected columns, so `pd.concat`
leaves it null), and for a kept first-feed record it carries the raw feed
code unchanged (`Q`/`G`/`S` in practice, unvalidated) — not a member of
{Global Select, Global, Capital}; the descriptive tier names exist only in
the derived view through `category_desc`. -/
theorem C7_market_category (a : List NasdaqLine) (b : List OtherLine) :
    (∀ r ∈ (otherPart b).map fillAndType, r.marketCategory = none)
    ∧ (∀ l ∈ a, (nasdaqRow l).symbol.isSome →
        (fillAndType (nasdaqRow l)).marketCategory = parseField l.marketCategory
        ∧ fillAndType (nasdaqRow l) ∈ load_all_tickers a b)
    ∧ load_all_tickers a b
        = (nasdaqPart a).map fillAndType ++ (otherPart b).map fillAndType
    ∧ category_desc "Q" = some "NASDAQ Global Select Market"
    ∧ category_desc "G" = some "NASDAQ Global Market"
    ∧ category_desc "S" = some "NASDAQ Capital Market" := by
  refine ⟨?_, ?_, by rw [load_all_tickers, List.map_append], by decide, by decide, by decide⟩
  · intro r hr
    simp only [otherPart, List.mem_map, List.mem_filter] at hr
    obtain ⟨x, ⟨⟨l, _, rfl⟩, _⟩, rfl⟩ := hr
    rfl
  · intro l hl hs
    exact ⟨rfl, nasdaq_mem_load hl hs⟩

/-- C7 counterexample: a first-feed row whose `Market Category` field is
`Q` appears in the canonical table with `market_category = Q`, which is
not in the claimed enumeration {Global Select, Global, Capital}. -/
theorem C7_counterexample :
    ¬ (∀ r ∈ load_all_tickers
          [{ symbol := "AAA", securityName := "Alpha Co", marketCategory := "Q", etf := "N" }]
          [],
        r.marketCategory = none
        ∨ r.marketCategory = some "Global Select"
        ∨ r.marketCategory = some "Global"
        ∨ r.marketCategory = some "Capital") := by
  decide

/-- C7 witness: instantiation at a concrete pair of feeds. -/
theorem C7_witness :
    (fillAndType (nasdaqRow
        { symbol := "AAA", securityName := "Alpha Co", marketCategory := "Q",
          etf := "N" })).marketCategory
      = parseField "Q"
    ∧ fillAndType (nasdaqRow
        { symbol := "AAA", securityName := "Alpha Co", marketCategory := "Q", etf := "N" })
      ∈ load_all_tickers
          [{ symbol := "AAA", securityName := "Alpha Co", marketCategory := "Q", etf := "N" }]
          [{ actSymbol := "BBB", securityName := "Beta Co", exchange := "N", etf := "N" }] :=
  (C7_market_category
      [{ symbol := "AAA", securityName := "Alpha Co", marketCategory := "Q", etf := "N" }]
      [{ actSymbol := "BBB", securityName := "Beta Co", exchange := "N", etf := "N" }]).2.1
    { symbol := "AAA", securityName := "Alpha Co", marketCategory := "Q", etf := "N" }
    (by decide) (by decide)

/-- The Python regex metacharacters; a query containing none of them is
matched by `re.search` exactly as a literal (case-folded) substring. -/
def regexMeta : List Char :=
  ['.', '^', '$', '*', '+', '?', '\x7b', '\x7d', '[', ']', '(', ')', '\\', '|']

def noMeta (q : String) : Bool :=
  q.data.all (fun c => !(regexMeta.contains c))

/-- `re.search` pattern step at a fixed position, for the regex fragment
the theorems below use (literal characters plus the `.` wildcard), with
`re.IGNORECASE` case folding: this is the semantics
`Series.str.contains(search, case=False, regex=True)` gives a pattern in
that fragment. -/
def reMatchHere : List Char → List Char → Bool
  | [], _ => true
  | _ :: _, [] => false
  | p :: ps, c :: cs => (p == '.' || p.toLower == c.toLower) && reMatchHere ps cs

/-- `re.search`: try the pattern at every start position. -/
def reSearch : List Char → List Char → Bool
  | p, [] => reMatchHere p []
  | p, c :: cs => reMatchHere p (c :: cs) || reSearch p cs

/-- The text-search step of the `filtered` view (lines 370-376): a falsy
(empty) query leaves the table unfiltered; otherwise a row is kept when
the regex search matches its `Symbol` or its `Security Name`, a `NaN` cell
counting as no match (`na=False`). -/
def searchFilter (q : String) (t : List Row) : List Row :=
  if q = "" then t
  else t.filter (fun r =>
    ((r.symbol.map (fun s => reSearch q.data s.data)).getD false)
    || ((r.securityName.map (fun s => reSearch q.data s.data)).getD false))

def isSubAt : List Char → List Char → Bool
  | [], _ => true
  | _ :: _, [] => false
  | a :: as, b :: bs => (a == b) && isSubAt as bs

def containsSub : List Char → List Char → Bool
  | p, [] => isSubAt p []
  | p, c :: cs => isSubAt p (c :: cs) || containsSub p cs

/-- Spec-side definition, following the spec's words: `q` occurs in `s` as
a case-insensitive substring. -/
def specContainsCI (q s : String) : Bool :=
  containsSub (q.data.map Char.toLower) (s.data.map Char.toLower)

theorem reMatchHere_eq_isSubAt {p : List Char} (hp : '.' ∉ p) (t : List Char) :
    reMatchHere p t = isSubAt (p.map Char.toLower) (t.map Char.toLower) := by
  induction p generalizing t with
  | nil => cases t <;> rfl
  | cons a as ih =>
    rw [List.mem_cons, not_or] at hp
    cases t with
    | nil => rfl
    | cons b bs =>
      simp only [reMatchHere, List.map_cons, isSubAt]
      rw [ih hp.2, beq_eq_false_iff_ne.mpr (Ne.symm hp.1), Bool.false_or]

theorem reSearch_eq_containsSub {p : List Char} (hp : '.' ∉ p) (t : List Char) :
    reSearch p t = containsSub (p.map Char.toLower) (t.map Char.toLower) := by
  induction t with
  | nil =>
    simp only [reSearch, containsSub]
    simpa using reMatchHere_eq_isSubAt hp []
  | cons c cs ih =>
    simp only [reSearch, containsSub, List.map_cons]
    rw [reMatchHere_eq_isSubAt hp, ih, List.map_cons]

theorem noMeta_no_dot {q : String} (h : noMeta q = true) : '.' ∉ q.data := by
  intro hd
  have h2 := List.all_eq_true.mp h '.' hd
  have hc : regexMeta.contains '.' = true := by decide
  rw [hc] at h2
  simp at h2

/-- C8 (amended): the search of lines 372-376 uses `str.contains` with its
default `regex=True`, so the query is a Python regular expression, not a
plain substring; for a query free of regex metacharacters the result is
exactly the rows whose `Symbol` or `Security Name` contains the query as a
case-insensitive substring, and an empty query returns every row
unchanged. -/
theorem C8_text_search (q : String) (t : List Row) (h : noMeta q = true) :
    (q ≠ "" → searchFilter q t = t.filter (fun r =>
        ((r.symbol.map (fun s => specContainsCI q s)).getD false)
        || ((r.securityName.map (fun s => specContainsCI q s)).getD false)))
    ∧ searchFilter "" t = t := by
  constructor
  · intro hq
    unfold searchFilter
    rw [if_neg hq]
    apply List.filter_congr
    intro r _
    have key : ∀ s : String, reSearch q.data s.data = specContainsCI q s :=
      fun s => reSearch_eq_containsSub (noMeta_no_dot h) s.data
    cases r.symbol <;> cases r.securityName <;> simp [key]
  · simp [searchFilter]

/-- C8 counterexample: with query `.` (a regex metacharacter), the code
keeps a row whose `Symbol` and `Security Name` do not contain `.` as a
substring, so the search is not case-insensitive substring matching. -/
theorem C8_counterexample :
    searchFilter "."
        [{ symbol := some "AB", securityName := some "Alpha Co", etf := some "N",
           exchange := some "NASDAQ", exchangeDetail := some "NASDAQ",
           marketCategory := none, typ := some "Stock" }]
      = [{ symbol := some "AB", securityName := some "Alpha Co", etf := some "N",
           exchange := some "NASDAQ", exchangeDetail := some "NASDAQ",
           marketCategory := none, typ := some "Stock" }]
    ∧ specContainsCI "." "AB" = false
    ∧ specContainsCI "." "Alpha Co" = false := by
  decide

/-- C8 witness: the amended theorem applied to a concrete metacharacter-free
query and a concrete table. -/
theorem C8_witness :
    searchFilter "ab"
        [{ symbol := some "AB", securityName := some "Alpha Co", etf := some "N",
           exchange := some "NASDAQ", exchangeDetail := some "NASDAQ",
           marketCategory := none, typ := some "Stock" }]
      = List.filter (fun r =>
          ((r.symbol.map (fun s => specContainsCI "ab" s)).getD false)
          || ((r.securityName.map (fun s => specContainsCI "ab" s)).getD false))
        [{ symbol := some "AB", securityName := some "Alpha Co", etf := some "N",
           exchange := some "NASDAQ", exchangeDetail := some "NASDAQ",
           marketCategory := none, typ := some "Stock" }]
    ∧ searchFilter ""
        [{ symbol := some "AB", securityName := some "Alpha Co", etf := some "N",
           exchange := some "NASDAQ", exchangeDetail := some "NASDAQ",
           marketCategory := none, typ := some "Stock" }]
      = [{ symbol := some "AB", securityName := some "Alpha Co", etf := some "N",
           exchange := some "NASDAQ", exchangeDetail := some "NASDAQ",
           marketCategory := none, typ := some "Stock" }] :=
  ⟨(C8_text_search "ab"
      [{ symbol := some "AB", securityName := some "Alpha Co", etf := some "N",
         exchange := some "NASDAQ", exchangeDetail := some "NASDAQ",
         marketCategory := none, typ := some "Stock" }] (by decide)).1 (by decide),
   (C8_text_search "ab"
      [{ symbol := some "AB", securityName := some "Alpha Co", etf := some "N",
         exchange := some "NASDAQ", exchangeDetail := some "NASDAQ",
         marketCategory := none, typ := some "Stock" }] (by decide)).2⟩

/-- A field must be quoted in CSV output when it contains the delimiter,
the quote character, or a line-terminator character (the `QUOTE_MINIMAL`
rule `df.to_csv` follows). -/
def needsQuote (s : String) : Bool :=
  s.data.any (fun c => c == ',' || c == '"' || c == '\n' || c == '\r')

/-- CSV quote escaping: each quote character is doubled. -/
def escQ : List Char → List Char
  | [] => []
  | c :: cs => if c = '"' then '"' :: '"' :: escQ cs else c :: escQ cs

/-- One serialized CSV field: a `NaN` cell is written as the empty field
(`to_csv` default `na_rep=''`), a text cell is quoted and escaped exactly
when `needsQuote` holds. -/
def writeField : Option String → List Char
  | none => []
  | some s => if needsQuote s then '"' :: (escQ s.data ++ ['"']) else s.data

/-- Comma-join of serialized fields. -/
def joinComma : List (List Char) → List Char
  | [] => []
  | [x] => x
  | x :: xs => x ++ ',' :: joinComma xs

/-- One serialized CSV record, terminated by a newline. -/
def writeRecord (fs : List (Option String)) : List Char :=
  joinComma (fs.map writeField) ++ ['\n']

/-- The header `to_csv` emits for the four columns the round-trip claim is
about. -/
def headerFields : List (Option String) :=
  [some "Symbol", some "Security Name", some "Type", some "Exchange_Detail"]

/-- The (symbol, name, type, exchange_detail) tuple of one canonical row,
in the export column order. -/
def rowTuple (r : Row) : List (Option String) :=
  [r.symbol, r.securityName, r.typ, r.exchangeDetail]

/-- `df.to_csv(index=False)` (line 105) restricted to the four columns of
the round-trip claim: a header record followed by one record per row. -/
def to_csv (rows : List Row) : List Char :=
  writeRecord headerFields ++ (rows.map (fun r => writeRecord (rowTuple r))).flatten

/-- Quote-aware splitting at an unquoted separator: scan the text keeping a
current segment and an in-quotes flag which every quote character toggles;
an occurrence of `sep` outside quotes ends the segment. -/
def splitTop (sep : Char) : List Char → Bool → List Char → List (List Char)
  | [], _, cur => [cur.reverse]
  | c :: cs, inQ, cur =>
    if c = '"' then splitTop sep cs (!inQ) (c :: cur)
    else if c = sep ∧ inQ = false then cur.reverse :: splitTop sep cs inQ []
    else splitTop sep cs inQ (c :: cur)

/-- CSV quote unescaping: each doubled quote collapses to one. -/
def undouble : List Char → List Char
  | [] => []
  | [c] => [c]
  | c :: d :: cs =>
    if c = '"' ∧ d = '"' then '"' :: undouble cs
    else c :: undouble (d :: cs)

/-- Decoding one split-out CSV field: an empty field reads back as missing
(pandas `read_csv` turns the empty field into `NaN`); a quoted field is
stripped of its outer quotes and unescaped. -/
def decodeField (f : List Char) : Option String :=
  match f with
  | [] => none
  | c :: rest =>
    if c = '"' then some (String.mk (undouble rest.dropLast))
    else some (String.mk (c :: rest))

/-- Parsing delimited-text export back into tuples: split into records at
unquoted newlines (the final empty segment after the trailing newline is
discarded), drop the header record, then split each record at unquoted
commas and decode each field. -/
def read_back (cs : List Char) : List (List (Option String)) :=
  (((splitTop '\n' cs false []).dropLast).drop 1).map
    (fun l => (splitTop ',' l false []).map decodeField)

example : read_back (to_csv []) = [] := by decide

example :
    read_back (to_csv
      [{ symbol := some "AAA", securityName := some "Alpha, \"Co\"", etf := some "N",
         exchange := some "NASDAQ", exchangeDetail := some "NASDAQ",
         marketCategory := some "Q", typ := some "Stock" },
       { symbol := some "BBB", securityName := none, etf := some "N",
         exchange := some "X", exchangeDetail := none,
         marketCategory := none, typ := none }]) =
    [[some "AAA", some "Alpha, \"Co\"", some "Stock", some "NASDAQ"],
     [some "BBB", none, none, none]] := by decide

theorem splitTop_nil (sep : Char) (inQ : Bool) (cur : List Char) :
    splitTop sep [] inQ cur = [cur.reverse] := rfl

theorem splitTop_quote (sep : Char) (cs : List Char) (inQ : Bool) (cur : List Char) :
    splitTop sep ('"' :: cs) inQ cur = splitTop sep cs (!inQ) ('"' :: cur) := by
  simp only [splitTop]
  simp

theorem splitTop_sep {sep : Char} (hsep : sep ≠ '"') (cs : List Char) (cur : List Char) :
    splitTop sep (sep :: cs) false cur = cur.reverse :: splitTop sep cs false [] := by
  simp only [splitTop]
  simp [hsep]

theorem splitTop_other {sep c : Char} {inQ : Bool} (hq : c ≠ '"')
    (hs : ¬(c = sep ∧ inQ = false)) (cs : List Char) (cur : List Char) :
    splitTop sep (c :: cs) inQ cur = splitTop sep cs inQ (c :: cur) := by
  simp only [splitTop]
  rw [if_neg hq, if_neg hs]

theorem escQ_cons_quote (cs : List Char) : escQ ('"' :: cs) = '"' :: '"' :: escQ cs := by
  simp [escQ]

theorem escQ_cons {c : Char} (hc : c ≠ '"') (cs : List Char) :
    escQ (c :: cs) = c :: escQ cs := by
  simp [escQ, hc]

theorem escQ_ne_nil (c : Char) (cs : List Char) : escQ (c :: cs) ≠ [] := by
  unfold escQ
  split_ifs <;> simp

theorem undouble_two_quotes (l : List Char) :
    undouble ('"' :: '"' :: l) = '"' :: undouble l := by
  simp only [undouble]
  simp

theorem undouble_escQ (l : List Char) : undouble (escQ l) = l := by
  induction l with
  | nil => rfl
  | cons c cs ih =>
    by_cases hc : c = '"'
    · subst hc
      rw [escQ_cons_quote, undouble_two_quotes, ih]
    · rw [escQ_cons hc]
      cases h : escQ cs with
      | nil =>
        have hcs : cs = [] := by
          cases cs with
          | nil => rfl
          | cons d ds => exact absurd h (escQ_ne_nil d ds)
        subst hcs
        simp [undouble]
      | cons d ds =>
        have h2 : undouble (c :: d :: ds) = c :: undouble (d :: ds) := by
          simp only [undouble]
          rw [if_neg (fun hcd => hc hcd.1)]
        rw [h2, ← h, ih]

theorem splitTop_consume_inQ (sep : Char) (s : List Char) :
    ∀ rest cur, splitTop sep (escQ s ++ rest) true cur
      = splitTop sep rest true ((escQ s).reverse ++ cur) := by
  induction s with
  | nil =>
    intro rest cur
    simp [escQ]
  | cons c cs ih =>
    intro rest cur
    by_cases hc : c = '"'
    · subst hc
      rw [escQ_cons_quote, List.cons_append, List.cons_append, splitTop_quote, splitTop_quote]
      simp only [Bool.not_true, Bool.not_false]
      rw [ih]
      simp [List.append_assoc]
    · rw [escQ_cons hc, List.cons_append,
        splitTop_other hc (fun hx => by simp at hx), ih]
      simp [List.append_assoc]

theorem splitTop_consume_plain (sep : Char) {s : List Char}
    (h : ∀ c ∈ s, c ≠ '"' ∧ c ≠ sep) :
    ∀ rest cur, splitTop sep (s ++ rest) false cur
      = splitTop sep rest false (s.reverse ++ cur) := by
  induction s with
  | nil =>
    intro rest cur
    simp
  | cons c cs ih =>
    intro rest cur
    have hc := h c (List.mem_cons_self c cs)
    rw [List.cons_append, splitTop_other hc.1 (fun hx => hc.2 hx.1),
      ih (fun d hd => h d (List.mem_cons_of_mem _ hd))]
    simp [List.append_assoc]

theorem needsQuote_false_chars {s : String} (h : needsQuote s = false) :
    ∀ c ∈ s.data, c ≠ ',' ∧ c ≠ '"' ∧ c ≠ '\n' ∧ c ≠ '\r' := by
  have h2 : ∀ x ∈ s.data, ((¬x = ',' ∧ ¬x = '"') ∧ ¬x = '\n') ∧ ¬x = '\r' := by
    simpa [needsQuote] using h
  intro c hc
  obtain ⟨⟨⟨g1, g2⟩, g3⟩, g4⟩ := h2 c hc
  exact ⟨g1, g2, g3, g4⟩

theorem writeField_some_quoted {s : String} (h : needsQuote s = true) :
    writeField (some s) = '"' :: (escQ s.data ++ ['"']) := by
  simp [writeField, h]

theorem writeField_some_plain {s : String} (h : needsQuote s = false) :
    writeField (some s) = s.data := by
  simp [writeField, h]

theorem splitTop_consume_field {sep : Char} (hsep : sep = ',' ∨ sep = '\n')
    (f : Option String) (rest cur : List Char) :
    splitTop sep (writeField f ++ rest) false cur
      = splitTop sep rest false ((writeField f).reverse ++ cur) := by
  cases f with
  | none => simp [writeField]
  | some s =>
    by_cases hq : needsQuote s = true
    · rw [writeField_some_quoted hq, List.cons_append, splitTop_quote]
      simp only [Bool.not_false]
      rw [List.append_assoc, splitTop_consume_inQ, List.singleton_append, splitTop_quote]
      simp only [Bool.not_true]
      congr 1
      simp [List.append_assoc]
    · have hq' : needsQuote s = false := by simpa using hq
      rw [writeField_some_plain hq']
      apply splitTop_consume_plain
      intro c hc
      have h4 := needsQuote_false_chars hq' c hc
      rcases hsep with rfl | rfl
      · exact ⟨h4.2.1, h4.1⟩
      · exact ⟨h4.2.1, h4.2.2.1⟩

theorem joinComma_map_cons (f g : Option String) (gs : List (Option String)) :
    joinComma ((f :: g :: gs).map writeField)
      = writeField f ++ ',' :: joinComma ((g :: gs).map writeField) := by
  simp [joinComma]

theorem splitTop_consume_joined (fs : List (Option String)) :
    ∀ rest cur, splitTop '\n' (joinComma (fs.map writeField) ++ rest) false cur
      = splitTop '\n' rest false ((joinComma (fs.map writeField)).reverse ++ cur) := by
  induction fs with
  | nil =>
    intro rest cur
    simp [joinComma]
  | cons f fs ih =>
    intro rest cur
    cases fs with
    | nil => simpa [joinComma] using splitTop_consume_field (Or.inr rfl) f rest cur
    | cons g gs =>
      rw [joinComma_map_cons, List.append_assoc,
        splitTop_consume_field (Or.inr rfl), List.cons_append,
        splitTop_other (by decide) (fun hx => absurd hx.1 (by decide)), ih]
      congr 1
      simp [List.append_assoc]

theorem splitTop_record (fs : List (Option String)) (rest cur : List Char) :
    splitTop '\n' (writeRecord fs ++ rest) false cur
      = (cur.reverse ++ joinComma (fs.map writeField)) :: splitTop '\n' rest false [] := by
  unfold writeRecord
  rw [List.append_assoc, splitTop_consume_joined, List.singleton_append,
    splitTop_sep (by decide)]
  congr 1
  simp

theorem splitTop_records (rows : List Row) :
    splitTop '\n' ((rows.map (fun r => writeRecord (rowTuple r))).flatten) false []
      = rows.map (fun r => joinComma ((rowTuple r).map writeField)) ++ [[]] := by
  induction rows with
  | nil => rfl
  | cons r rs ih =>
    rw [List.map_cons, List.flatten_cons, splitTop_record, ih]
    simp

theorem records_of_to_csv (rows : List Row) :
    ((splitTop '\n' (to_csv rows) false []).dropLast).drop 1
      = rows.map (fun r => joinComma ((rowTuple r).map writeField)) := by
  unfold to_csv
  rw [splitTop_record, splitTop_records]
  have h2 : (([] : List Char).reverse ++ joinComma (headerFields.map writeField))
        :: (rows.map (fun r => joinComma ((rowTuple r).map writeField)) ++ [([] : List Char)])
      = ((([] : List Char).reverse ++ joinComma (headerFields.map writeField))
          :: rows.map (fun r => joinComma ((rowTuple r).map writeField))) ++ [([] : List Char)] := by
    simp
  rw [h2, List.dropLast_concat]
  rfl

theorem splitTop_line (fs : List (Option String)) (hne : fs ≠ []) :
    splitTop ',' (joinComma (fs.map writeField)) false [] = fs.map writeField := by
  induction fs with
  | nil => exact absurd rfl hne
  | cons f fs ih =>
    cases fs with
    | nil =>
      have h := splitTop_consume_field (Or.inl rfl) f [] []
      simp only [List.append_nil] at h
      simp [joinComma, h, splitTop_nil]
    | cons g gs =>
      rw [joinComma_map_cons, splitTop_consume_field (Or.inl rfl),
        splitTop_sep (by decide), ih (by simp)]
      simp

theorem decode_writeField (f : Option String) (hf : f ≠ some "") :
    decodeField (writeField f) = f := by
  cases f with
  | none => rfl
  | some s =>
    by_cases hq : needsQuote s = true
    · rw [writeField_some_quoted hq]
      show some (String.mk (undouble (escQ s.data ++ ['"']).dropLast)) = some s
      rw [List.dropLast_concat, undouble_escQ]
    · have hq' : needsQuote s = false := by simpa using hq
      rw [writeField_some_plain hq']
      have hs : s ≠ "" := fun h => hf (by rw [h])
      cases hd : s.data with
      | nil =>
        have hseq : s = "" := by
          cases s with
          | mk d =>
            have hd' : d = [] := hd
            subst hd'
            rfl
        exact absurd hseq hs
      | cons c cs =>
        have hc : c ≠ '"' :=
          (needsQuote_false_chars hq' c (by rw [hd]; exact List.mem_cons_self _ _)).2.1
        have h3 : decodeField (c :: cs) = some (String.mk (c :: cs)) := by
          simp only [decodeField]
          rw [if_neg hc]
        rw [h3, ← hd]

theorem decode_record (fs : List (Option String)) (hne : fs ≠ [])
    (hf : ∀ f ∈ fs, f ≠ some "") :
    (splitTop ',' (joinComma (fs.map writeField)) false []).map decodeField = fs := by
  rw [splitTop_line fs hne, List.map_map]
  have h : ∀ l : List (Option String), (∀ f ∈ l, f ≠ some "") →
      l.map (fun f => decodeField (writeField f)) = l := by
    intro l hl
    induction l with
    | nil => rfl
    | cons x xs ih =>
      rw [List.map_cons, decode_writeField x (hl x (List.mem_cons_self _ _)),
        ih (fun f hmem => hl f (List.mem_cons_of_mem _ hmem))]
  exact h fs hf

/-- A canonical-table row is export-safe when none of its four exported
cells holds the empty string (a cell that is present but empty would
serialize to the empty field and read back as missing); the normalizer
never produces such a cell. -/
def wfRow (r : Row) : Prop :=
  ∀ f ∈ rowTuple r, f ≠ some ""

instance (r : Row) : Decidable (wfRow r) := by
  unfold wfRow
  infer_instance

theorem parseField_ne_some_empty (s : String) : parseField s ≠ some "" := by
  unfold parseField
  split_ifs with h
  · simp
  · simp [h]

theorem mapType_ne_some_empty (e : String) : mapType e ≠ some "" := by
  unfold mapType
  split_ifs <;> simp

theorem mapExchange_ne_some_empty (c : String) : mapExchange c ≠ some "" := by
  unfold mapExchange
  split_ifs <;> simp

theorem wfRow_load {a : List NasdaqLine} {b : List OtherLine} {r : Row}
    (hr : r ∈ load_all_tickers a b) : wfRow r := by
  rcases load_cases hr with ⟨l, _, _, rfl⟩ | ⟨l, _, _, rfl⟩ <;> intro f hf
  · have h2 : f = parseField l.symbol ∨ f = parseField l.securityName
        ∨ f = mapType ((parseField l.etf).getD "N") ∨ f = some "NASDAQ" := by
      simpa [rowTuple, fillAndType, nasdaqRow, List.mem_cons] using hf
    rcases h2 with rfl | rfl | rfl | rfl
    · exact parseField_ne_some_empty _
    · exact parseField_ne_some_empty _
    · exact mapType_ne_some_empty _
    · simp
  · have h2 : f = parseField l.actSymbol ∨ f = parseField l.securityName
        ∨ f = mapType ((parseField l.etf).getD "N")
        ∨ f = (parseField l.exchange).bind mapExchange := by
      simpa [rowTuple, fillAndType, otherRow, List.mem_cons] using hf
    rcases h2 with rfl | rfl | rfl | rfl
    · exact parseField_ne_some_empty _
    · exact parseField_ne_some_empty _
    · exact mapType_ne_some_empty _
    · cases parseField l.exchange with
      | none => simp
      | some c => exact mapExchange_ne_some_empty c

/-- C9: serializing any list of export-safe rows — in particular any
subset of a canonical table, including the empty subset — to the
delimited-text export format (`df.to_csv(index=False)`, line 105,
restricted to the four claimed columns) and parsing the output back by the
CSV rules recovers exactly the original list of
(symbol, name, type, exchange_detail) tuples, hence the same set of
tuples; and every row the normalizer produces is export-safe. -/
theorem C9_export_roundtrip :
    (∀ rows : List Row, (∀ r ∈ rows, wfRow r) →
        read_back (to_csv rows) = rows.map rowTuple)
    ∧ (∀ (a : List NasdaqLine) (b : List OtherLine),
        ∀ r ∈ load_all_tickers a b, wfRow r) := by
  constructor
  · intro rows h
    unfold read_back
    rw [records_of_to_csv, List.map_map]
    apply List.map_congr_left
    intro r hr
    exact decode_record (rowTuple r) (by simp [rowTuple]) (h r hr)
  · intro a b r hr
    exact wfRow_load hr

/-- C9 witness: the round trip applied to the empty subset and to a
concrete canonical table containing a quoted name, a missing name, an
unmapped exchange code and an unknown fund flag. -/
theorem C9_witness :
    read_back (to_csv []) = ([] : List Row).map rowTuple
    ∧ read_back (to_csv (load_all_tickers
          [{ symbol := "AAA", securityName := "Alpha, \"Co\"", marketCategory := "Q",
             etf := "Y" }]
          [{ actSymbol := "BBB", securityName := "", exchange := "X", etf := "W" }]))
      = (load_all_tickers
          [{ symbol := "AAA", securityName := "Alpha, \"Co\"", marketCategory := "Q",
             etf := "Y" }]
          [{ actSymbol := "BBB", securityName := "", exchange := "X", etf := "W" }]).map
        rowTuple :=
  ⟨C9_export_roundtrip.1 [] (by decide),
   C9_export_roundtrip.1 (load_all_tickers
      [{ symbol := "AAA", securityName := "Alpha, \"Co\"", marketCategory := "Q",
         etf := "Y" }]
      [{ actSymbol := "BBB", securityName := "", exchange := "X", etf := "W" }])
    (by decide)⟩

/-- The three payload shapes `create_download_link` can build. The csv
payload is the delimited text of line 105; the spreadsheet and
structured-record serializations (lines 107-114) are produced by
black-box library writers, so the payload constructors carry the dataframe they
serialize. -/
inductive ExportPayload where
  | csvData : List Char → ExportPayload
  | excelData : List Row → ExportPayload
  | jsonData : List Row → ExportPayload
deriving DecidableEq

/-- `create_download_link` (lines 102-117): an `if/elif/elif` chain on
`file_format` with no `else`; when no branch runs, the Python function
body reaches `return data, mime` with both variables unassigned and raises
`UnboundLocalError`, which the `none` result models — there is no default
format fallback. -/
def create_download_link (df : List Row) (file_format : String) :
    Option (ExportPayload × String) :=
  if file_format = "csv" then
    some (ExportPayload.csvData (to_csv df), "text/csv")
  else if file_format = "excel" then
    some (ExportPayload.excelData df,
      "application/vnd.openxmlformats-officedocument.spreadsheetml.sheet")
  else if file_format = "json" then
    some (ExportPayload.jsonData df, "application/json")
  else
    none

/-- C10: for every dataframe, `create_download_link` returns a
(data, mime) pair exactly for the format strings `csv`, `excel` and
`json`; any other format string assigns neither result variable and the
call fails with an unbound-variable error instead of returning a payload —
there is no default format fallback. -/
theorem C10_download_link_formats (df : List Row) (file_format : String) :
    (create_download_link df file_format).isSome
      ↔ (file_format = "csv" ∨ file_format = "excel" ∨ file_format = "json") := by
  unfold create_download_link
  split_ifs with h1 h2 h3 <;> simp_all
